import Mathlib

/-!
Verification of the Moodle ELT ingestion core: a shallow embedding of
`dags/utils/moodle_api.py` and the record-shaping / persistence logic of
`dags/moodle4_dag.py`, together with theorems settling the specification
claims about hashing, persistence, the API call executor, entity
extraction, record preparation, configuration parsing and URL validation.
-/

/-! ## JSON data model

Values decoded from the remote API (`response.json()`) are arbitrary
JSON-compatible Python structures.  Objects are association lists of
string keys; Python dicts produced by the json decoder never carry
duplicate keys, which the predicate `isDictLike` captures.  Numbers are
embedded as integers (every payload the claims touch is integral). -/

inductive Json where
  | null
  | bool (b : Bool)
  | num (n : Int)
  | str (s : String)
  | arr (items : List Json)
  | obj (fields : List (String × Json))
deriving Repr

/-! ## Key-order-independent semantic equality

`semEq` embeds Python `==` on decoded JSON values: dict comparison is
independent of key order (each key of the left dict is looked up in the
right dict and the values compared), list comparison is positional. -/

mutual

def semEq : Json → Json → Bool
  | .null, .null => true
  | .bool a, .bool b => a == b
  | .num a, .num b => a == b
  | .str a, .str b => a == b
  | .arr l1, .arr l2 => semEqList l1 l2
  | .obj l1, .obj l2 => semEqFields l1 l2
  | _, _ => false

def semEqList : List Json → List Json → Bool
  | [], [] => true
  | x :: xs, y :: ys => semEq x y && semEqList xs ys
  | _, _ => false

def lookupRemove (k : String) : List (String × Json) → Option (Json × List (String × Json))
  | [] => none
  | (k2, v) :: rest =>
      if k = k2 then some (v, rest)
      else match lookupRemove k rest with
        | some (v2, rest2) => some (v2, (k2, v) :: rest2)
        | none => none

def semEqFields : List (String × Json) → List (String × Json) → Bool
  | [], l2 => l2.isEmpty
  | (k, v) :: rest, l2 =>
      match lookupRemove k l2 with
      | some (v2, l2x) => semEq v v2 && semEqFields rest l2x
      | none => false

end

/-! A JSON value is dict-like when every object in it, at every nesting
level, has pairwise distinct keys — exactly the values representable as
Python dict structures. -/

mutual

def isDictLike : Json → Bool
  | .null => true
  | .bool _ => true
  | .num _ => true
  | .str _ => true
  | .arr l => isDictLikeList l
  | .obj l => decide ((l.map Prod.fst).Nodup) && isDictLikeFields l

def isDictLikeList : List Json → Bool
  | [] => true
  | x :: xs => isDictLike x && isDictLikeList xs

def isDictLikeFields : List (String × Json) → Bool
  | [] => true
  | (_, v) :: rest => isDictLike v && isDictLikeFields rest

end

/-! ## Canonical form: recursive key-sorting

`json.dumps(data, sort_keys=True)` serializes every object with its keys
in sorted order.  `canon` pre-sorts every object of the value by key
(Python string comparison is lexicographic by code point, as is the
`String` linear order used here); serialization of the canonical form
then equals the sorted-keys serialization. -/

def keyLe (p q : String × Json) : Prop := p.1 ≤ q.1

instance : DecidableRel keyLe := fun p q => inferInstanceAs (Decidable (p.1 ≤ q.1))

instance : IsTotal (String × Json) keyLe := ⟨fun p q => le_total p.1 q.1⟩

instance : IsTrans (String × Json) keyLe := ⟨fun _ _ _ h1 h2 => le_trans h1 h2⟩

def sortByKey (l : List (String × Json)) : List (String × Json) :=
  l.insertionSort keyLe

mutual

def canon : Json → Json
  | .null => .null
  | .bool b => .bool b
  | .num n => .num n
  | .str s => .str s
  | .arr items => .arr (canonList items)
  | .obj fields => .obj (sortByKey (canonFields fields))

def canonList : List Json → List Json
  | [] => []
  | x :: xs => canon x :: canonList xs

def canonFields : List (String × Json) → List (String × Json)
  | [] => []
  | (k, v) :: xs => (k, canon v) :: canonFields xs

end

/-! ## Serialization: `json.dumps`

Embeds CPython `json.dumps` with its default separators and
`ensure_ascii=True`: strings are double-quoted with `"` and `\` escaped,
the named control escapes emitted, and every other character outside the
printable ASCII range `0x20..0x7e` rendered as a `\uXXXX` escape
(surrogate pairs above `0xFFFF`); lists use `, ` and objects `: `/`, `
separators.  The output is therefore pure ASCII, so its UTF-8 encoding
is the pointwise character-code byte sequence. -/

def hexDigitList : List Char := "0123456789abcdef".toList

def hexDigitChar (n : Nat) : Char := hexDigitList.getD n '0'

def uEscape (n : Nat) : List Char :=
  ['\\', 'u', hexDigitChar (n / 4096 % 16), hexDigitChar (n / 256 % 16),
   hexDigitChar (n / 16 % 16), hexDigitChar (n % 16)]

def escapeChar (c : Char) : List Char :=
  if c = '"' then ['\\', '"']
  else if c = '\\' then ['\\', '\\']
  else if c = '\n' then ['\\', 'n']
  else if c = '\r' then ['\\', 'r']
  else if c = '\t' then ['\\', 't']
  else if c.toNat = 8 then ['\\', 'b']
  else if c.toNat = 12 then ['\\', 'f']
  else if c.toNat < 32 ∨ 126 < c.toNat then
    if c.toNat ≤ 65535 then uEscape c.toNat
    else uEscape (55296 + (c.toNat - 65536) / 1024) ++ uEscape (56320 + (c.toNat - 65536) % 1024)
  else [c]

def encodeString (s : String) : List Char :=
  '"' :: s.toList.flatMap escapeChar ++ ['"']

def openBrace : Char := Char.ofNat 123

def closeBrace : Char := Char.ofNat 125

mutual

def serializeRawL : Json → List Char
  | .null => "null".toList
  | .bool true => "true".toList
  | .bool false => "false".toList
  | .num n => (toString n).toList
  | .str s => encodeString s
  | .arr items => '[' :: serializeItems items ++ [']']
  | .obj fields => openBrace :: serializeFieldsL fields ++ [closeBrace]

def serializeItems : List Json → List Char
  | [] => []
  | [x] => serializeRawL x
  | x :: y :: rest => serializeRawL x ++ [',', ' '] ++ serializeItems (y :: rest)

def serializeFieldsL : List (String × Json) → List Char
  | [] => []
  | [(k, v)] => encodeString k ++ [':', ' '] ++ serializeRawL v
  | (k, v) :: p :: rest =>
      encodeString k ++ [':', ' '] ++ serializeRawL v ++ [',', ' '] ++ serializeFieldsL (p :: rest)

end

/-- Output of `json.dumps(data, sort_keys=True)`: serialization of the
canonical (recursively key-sorted) form. -/
def dumpsSorted (d : Json) : List Char := serializeRawL (canon d)

/-! ## MD5

Full embedding of the MD5 digest over a byte sequence, with 32-bit words
as naturals reduced modulo `2 ^ 32`.  `compute_hash` in
`dags/utils/moodle_api.py` is `hashlib.md5(json_str.encode()).hexdigest()`. -/

def w32 : Nat := 4294967296

def mask32 : Nat := 4294967295

def add32 (a b : Nat) : Nat := (a + b) % w32

def not32 (a : Nat) : Nat := a ^^^ mask32

def rotl32 (x n : Nat) : Nat := ((x <<< n) % w32) ||| (x >>> (32 - n))

def md5S : List Nat :=
  [7, 12, 17, 22, 7, 12, 17, 22, 7, 12, 17, 22, 7, 12, 17, 22,
   5, 9, 14, 20, 5, 9, 14, 20, 5, 9, 14, 20, 5, 9, 14, 20,
   4, 11, 16, 23, 4, 11, 16, 23, 4, 11, 16, 23, 4, 11, 16, 23,
   6, 10, 15, 21, 6, 10, 15, 21, 6, 10, 15, 21, 6, 10, 15, 21]

def md5K : List Nat :=
  [0xd76aa478, 0xe8c7b756, 0x242070db, 0xc1bdceee,
   0xf57c0faf, 0x4787c62a, 0xa8304613, 0xfd469501,
   0x698098d8, 0x8b44f7af, 0xffff5bb1, 0x895cd7be,
   0x6b901122, 0xfd987193, 0xa679438e, 0x49b40821,
   0xf61e2562, 0xc040b340, 0x265e5a51, 0xe9b6c7aa,
   0xd62f105d, 0x02441453, 0xd8a1e681, 0xe7d3fbc8,
   0x21e1cde6, 0xc33707d6, 0xf4d50d87, 0x455a14ed,
   0xa9e3e905, 0xfcefa3f8, 0x676f02d9, 0x8d2a4c8a,
   0xfffa3942, 0x8771f681, 0x6d9d6122, 0xfde5380c,
   0xa4beea44, 0x4bdecfa9, 0xf6bb4b60, 0xbebfbc70,
   0x289b7ec6, 0xeaa127fa, 0xd4ef3085, 0x04881d05,
   0xd9d4d039, 0xe6db99e5, 0x1fa27cf8, 0xc4ac5665,
   0xf4292244, 0x432aff97, 0xab9423a7, 0xfc93a039,
   0x655b59c3, 0x8f0ccc92, 0xffeff47d, 0x85845dd1,
   0x6fa87e4f, 0xfe2ce6e0, 0xa3014314, 0x4e0811a1,
   0xf7537e82, 0xbd3af235, 0x2ad7d2bb, 0xeb86d391]

/-- One of the 64 MD5 rounds, acting on the register quadruple. -/
def md5Round (M : Nat → Nat) (st : Nat × Nat × Nat × Nat) (i : Nat) : Nat × Nat × Nat × Nat :=
  let A := st.1
  let B := st.2.1
  let C := st.2.2.1
  let D := st.2.2.2
  let Fg : Nat × Nat :=
    if i < 16 then ((B &&& C) ||| (not32 B &&& D), i)
    else if i < 32 then ((D &&& B) ||| (not32 D &&& C), (5 * i + 1) % 16)
    else if i < 48 then (B ^^^ C ^^^ D, (3 * i + 5) % 16)
    else (C ^^^ (B ||| not32 D), (7 * i) % 16)
  let F2 := (Fg.1 + A + md5K.getD i 0 + M Fg.2) % w32
  (D, add32 B (rotl32 F2 (md5S.getD i 0)), B, C)

/-- Little-endian 32-bit word assembled from 4 bytes of a chunk. -/
def chunkWord (chunk : List Nat) (g : Nat) : Nat :=
  chunk.getD (4 * g) 0 + 256 * chunk.getD (4 * g + 1) 0 +
    65536 * chunk.getD (4 * g + 2) 0 + 16777216 * chunk.getD (4 * g + 3) 0

def md5ProcessChunk (st : Nat × Nat × Nat × Nat) (chunk : List Nat) : Nat × Nat × Nat × Nat :=
  let r := (List.range 64).foldl (md5Round (chunkWord chunk)) st
  (add32 st.1 r.1, add32 st.2.1 r.2.1, add32 st.2.2.1 r.2.2.1, add32 st.2.2.2 r.2.2.2)

def toChunks : List Nat → List (List Nat)
  | [] => []
  | b :: rest => ((b :: rest).take 64) :: toChunks ((b :: rest).drop 64)
  termination_by l => l.length
  decreasing_by simp; omega

/-- Little-endian 8-byte length trailer: the bit length modulo `2 ^ 64`. -/
def lenBytes (byteLen : Nat) : List Nat :=
  let bits := (8 * byteLen) % 18446744073709551616
  [bits % 256, bits / 256 % 256, bits / 65536 % 256, bits / 16777216 % 256,
   bits / 4294967296 % 256, bits / 1099511627776 % 256,
   bits / 281474976710656 % 256, bits / 72057594037927936 % 256]

def md5Pad (msg : List Nat) : List Nat :=
  msg ++ 128 :: List.replicate ((120 - (msg.length + 1) % 64) % 64) 0 ++ lenBytes msg.length

def md5Init : Nat × Nat × Nat × Nat := (0x67452301, 0xefcdab89, 0x98badcfe, 0x10325476)

def wordLEBytes (w : Nat) : List Nat :=
  [w % 256, w / 256 % 256, w / 65536 % 256, w / 16777216 % 256]

def md5DigestBytes (msg : List Nat) : List Nat :=
  let st := (toChunks (md5Pad msg)).foldl md5ProcessChunk md5Init
  wordLEBytes st.1 ++ wordLEBytes st.2.1 ++ wordLEBytes st.2.2.1 ++ wordLEBytes st.2.2.2

def hexOfBytes : List Nat → List Char
  | [] => []
  | b :: rest => hexDigitChar (b / 16 % 16) :: hexDigitChar (b % 16) :: hexOfBytes rest

def md5HexChars (msg : List Nat) : List Char := hexOfBytes (md5DigestBytes msg)

/-- Embedding of `compute_hash` (`dags/utils/moodle_api.py`):
`hashlib.md5(json.dumps(data, sort_keys=True).encode()).hexdigest()`.
The serialized form is pure ASCII, so `encode()` is the character-code
byte sequence. -/
def compute_hash (data : Json) : String :=
  String.mk (md5HexChars ((dumpsSorted data).map Char.toNat))

/-! ## Lemmas toward claim C1 -/

def keyLt (p q : String × Json) : Prop := p.1 < q.1

instance : IsAntisymm (String × Json) keyLt :=
  ⟨fun _ _ h1 h2 => absurd (lt_trans h1 h2) (lt_irrefl _)⟩

theorem lookupRemove_perm {k : String} : ∀ {l : List (String × Json)} {v : Json}
    {l' : List (String × Json)}, lookupRemove k l = some (v, l') → l.Perm ((k, v) :: l')
  | [], _, _, h => by simp [lookupRemove] at h
  | (k2, v0) :: rest, v, l', h => by
      by_cases hk : k = k2
      · subst hk
        simp [lookupRemove] at h
        obtain ⟨hv, hl⟩ := h
        subst hv; subst hl
        exact List.Perm.refl _
      · rw [lookupRemove, if_neg hk] at h
        cases h2 : lookupRemove k rest with
        | none => rw [h2] at h; simp at h
        | some pr =>
            obtain ⟨v2, rest2⟩ := pr
            rw [h2] at h
            simp at h
            obtain ⟨hv, hl⟩ := h
            subst hv
            subst hl
            exact ((lookupRemove_perm h2).cons (k2, v0)).trans (List.Perm.swap _ _ _)

theorem isDictLikeList_iff {l : List Json} :
    isDictLikeList l = true ↔ ∀ x ∈ l, isDictLike x = true := by
  induction l with
  | nil => simp [isDictLikeList]
  | cons x xs ih => simp [isDictLikeList, ih]

theorem isDictLikeFields_iff {l : List (String × Json)} :
    isDictLikeFields l = true ↔ ∀ p ∈ l, isDictLike p.2 = true := by
  induction l with
  | nil => simp [isDictLikeFields]
  | cons p xs ih => obtain ⟨k, v⟩ := p; simp [isDictLikeFields, ih]

theorem canonFields_eq_map : ∀ l : List (String × Json),
    canonFields l = l.map (fun p => (p.1, canon p.2))
  | [] => rfl
  | (k, v) :: xs => by rw [canonFields, List.map_cons, canonFields_eq_map xs]

theorem canonFields_keys (l : List (String × Json)) :
    (canonFields l).map Prod.fst = l.map Prod.fst := by
  rw [canonFields_eq_map, List.map_map]
  rfl

theorem sortByKey_sorted (l : List (String × Json)) : List.Sorted keyLe (sortByKey l) :=
  List.sorted_insertionSort keyLe l

theorem sortByKey_perm (l : List (String × Json)) : (sortByKey l).Perm l :=
  List.perm_insertionSort keyLe l

theorem sorted_keyLt {l : List (String × Json)} (hs : List.Sorted keyLe l)
    (hn : (l.map Prod.fst).Nodup) : List.Sorted keyLt l := by
  have hp : List.Pairwise (fun p q : String × Json => p.1 ≠ q.1) l := List.pairwise_map.1 hn
  exact (hs.and hp).imp fun h => lt_of_le_of_ne h.1 h.2

theorem sortByKey_eq_of_perm {l1 l2 : List (String × Json)} (hp : l1.Perm l2)
    (hn : (l1.map Prod.fst).Nodup) : sortByKey l1 = sortByKey l2 := by
  have hn2 : (l2.map Prod.fst).Nodup := ((hp.map Prod.fst).nodup_iff).1 hn
  have hns1 : ((sortByKey l1).map Prod.fst).Nodup :=
    (((sortByKey_perm l1).map Prod.fst).nodup_iff).2 hn
  have hns2 : ((sortByKey l2).map Prod.fst).Nodup :=
    (((sortByKey_perm l2).map Prod.fst).nodup_iff).2 hn2
  exact List.eq_of_perm_of_sorted
    ((sortByKey_perm l1).trans (hp.trans (sortByKey_perm l2).symm))
    (sorted_keyLt (sortByKey_sorted l1) hns1)
    (sorted_keyLt (sortByKey_sorted l2) hns2)

theorem semEqList_canonList : ∀ (l1 l2 : List Json),
    (∀ x ∈ l1, ∀ y, isDictLike x = true → isDictLike y = true →
      semEq x y = true → canon x = canon y) →
    isDictLikeList l1 = true → isDictLikeList l2 = true →
    semEqList l1 l2 = true → canonList l1 = canonList l2
  | [], [], _, _, _, _ => rfl
  | [], _ :: _, _, _, _, h => by simp [semEqList] at h
  | _ :: _, [], _, _, _, h => by simp [semEqList] at h
  | x :: xs, y :: ys, hpt, hd1, hd2, h => by
      rw [semEqList, Bool.and_eq_true] at h
      rw [isDictLikeList, Bool.and_eq_true] at hd1 hd2
      rw [canonList, canonList,
        hpt x (List.mem_cons_self x xs) y hd1.1 hd2.1 h.1,
        semEqList_canonList xs ys (fun a ha => hpt a (List.mem_cons_of_mem x ha))
          hd1.2 hd2.2 h.2]

theorem semEqFields_canonFields : ∀ (l1 l2 : List (String × Json)),
    (∀ p ∈ l1, ∀ y, isDictLike p.2 = true → isDictLike y = true →
      semEq p.2 y = true → canon p.2 = canon y) →
    isDictLikeFields l1 = true → isDictLikeFields l2 = true →
    semEqFields l1 l2 = true → (canonFields l1).Perm (canonFields l2)
  | [], l2, _, _, _, h => by
      rw [semEqFields, List.isEmpty_iff] at h
      subst h
      exact List.Perm.refl _
  | (k, v) :: rest, l2, hpt, hd1, hd2, h => by
      rw [semEqFields] at h
      cases h2 : lookupRemove k l2 with
      | none => rw [h2] at h; simp at h
      | some pr =>
          obtain ⟨v2, l2x⟩ := pr
          rw [h2, Bool.and_eq_true] at h
          have hperm2 : l2.Perm ((k, v2) :: l2x) := lookupRemove_perm h2
          have hd2' : ∀ p ∈ (k, v2) :: l2x, isDictLike p.2 = true := by
            intro p hp
            exact isDictLikeFields_iff.1 hd2 p (hperm2.symm.subset hp)
          have hdv2 : isDictLike v2 = true := hd2' (k, v2) (List.mem_cons_self _ _)
          rw [isDictLikeFields, Bool.and_eq_true] at hd1
          have hcv : canon v = canon v2 :=
            hpt (k, v) (List.mem_cons_self _ _) v2 hd1.1 hdv2 h.1
          have ih : (canonFields rest).Perm (canonFields l2x) :=
            semEqFields_canonFields rest l2x
              (fun p hp => hpt p (List.mem_cons_of_mem _ hp)) hd1.2
              (isDictLikeFields_iff.2 fun p hp => hd2' p (List.mem_cons_of_mem _ hp)) h.2
          have e1 : canonFields ((k, v) :: rest) = (k, canon v2) :: canonFields rest := by
            rw [canonFields, hcv]
          have p1 : ((k, canon v2) :: canonFields rest).Perm
              ((k, canon v2) :: canonFields l2x) := ih.cons _
          have p2 : (canonFields ((k, v2) :: l2x)).Perm (canonFields l2) := by
            rw [canonFields_eq_map, canonFields_eq_map]
            exact hperm2.symm.map _
          rw [canonFields] at p2
          rw [e1]
          exact p1.trans p2

theorem semEq_canon : ∀ (n : Nat) (d1 d2 : Json), sizeOf d1 ≤ n →
    isDictLike d1 = true → isDictLike d2 = true →
    semEq d1 d2 = true → canon d1 = canon d2 := by
  intro n
  induction n with
  | zero =>
      intro d1 d2 hsz
      exfalso
      cases d1 <;> simp at hsz
  | succ n ih =>
      intro d1 d2 hsz hd1 hd2 heq
      cases d1 <;> cases d2 <;> simp [semEq] at heq <;> try rfl
      case bool.bool => rw [heq]
      case num.num => rw [heq]
      case str.str => rw [heq]
      case arr.arr l1 l2 =>
          rw [isDictLike] at hd1 hd2
          rw [canon, canon]
          have hpt : ∀ x ∈ l1, ∀ y, isDictLike x = true → isDictLike y = true →
              semEq x y = true → canon x = canon y := by
            intro x hx y
            apply ih
            have h1 : sizeOf x < sizeOf l1 := List.sizeOf_lt_of_mem hx
            have h2 : sizeOf (Json.arr l1) = 1 + sizeOf l1 := by simp
            omega
          rw [semEqList_canonList l1 l2 hpt hd1 hd2 heq]
      case obj.obj l1 l2 =>
          rw [isDictLike, Bool.and_eq_true, decide_eq_true_eq] at hd1 hd2
          rw [canon, canon]
          have hpt : ∀ p ∈ l1, ∀ y, isDictLike p.2 = true → isDictLike y = true →
              semEq p.2 y = true → canon p.2 = canon y := by
            intro p hp y
            apply ih
            have h1 : sizeOf p < sizeOf l1 := List.sizeOf_lt_of_mem hp
            have h2 : sizeOf (Json.obj l1) = 1 + sizeOf l1 := by simp
            have h3 : sizeOf p.2 < sizeOf p := by
              obtain ⟨a, b⟩ := p
              simp
            omega
          have hperm := semEqFields_canonFields l1 l2 hpt hd1.2 hd2.2 heq
          have hn : ((canonFields l1).map Prod.fst).Nodup := by
            rw [canonFields_keys]; exact hd1.1
          rw [sortByKey_eq_of_perm hperm hn]

theorem hexOfBytes_length : ∀ bs : List Nat, (hexOfBytes bs).length = 2 * bs.length
  | [] => rfl
  | _ :: rest => by rw [hexOfBytes, List.length_cons, List.length_cons,
      hexOfBytes_length rest, List.length_cons]; ring

theorem md5DigestBytes_length (msg : List Nat) : (md5DigestBytes msg).length = 16 := by
  rw [md5DigestBytes]
  simp [wordLEBytes]

theorem hexDigitChar_mem (n : Nat) : hexDigitChar n ∈ hexDigitList := by
  rw [hexDigitChar]
  by_cases h : n < hexDigitList.length
  · rw [List.getD_eq_getElem _ _ h]
    exact List.getElem_mem h
  · rw [List.getD_eq_default _ _ (le_of_not_lt h)]
    simp [hexDigitList]

theorem hexOfBytes_mem : ∀ (bs : List Nat) (c : Char), c ∈ hexOfBytes bs → c ∈ hexDigitList
  | [], _, h => by simp [hexOfBytes] at h
  | b :: rest, c, h => by
      rw [hexOfBytes, List.mem_cons, List.mem_cons] at h
      rcases h with h | h | h
      · rw [h]; exact hexDigitChar_mem _
      · rw [h]; exact hexDigitChar_mem _
      · exact hexOfBytes_mem rest c h

/-- C1: `compute_hash` is invariant under key-order-independent semantic
equality — for dict-like inputs `d1`, `d2` related by Python equality
(`semEq`, which compares objects as finite maps at every nesting level),
the digests coincide — and the digest is a fixed-length (32 character)
hexadecimal string.  Determinism holds because `compute_hash` is a pure
function of its argument. -/
theorem compute_hash_key_order_independent (d1 d2 : Json)
    (h1 : isDictLike d1 = true) (h2 : isDictLike d2 = true)
    (heq : semEq d1 d2 = true) :
    compute_hash d1 = compute_hash d2 ∧ (compute_hash d1).length = 32 ∧
      ∀ c ∈ (compute_hash d1).toList, c ∈ hexDigitList := by
  refine ⟨?_, ?_, ?_⟩
  · rw [compute_hash, compute_hash, dumpsSorted, dumpsSorted,
      semEq_canon (sizeOf d1) d1 d2 (le_refl _) h1 h2 heq]
  · show (md5HexChars ((dumpsSorted d1).map Char.toNat)).length = 32
    rw [md5HexChars, hexOfBytes_length, md5DigestBytes_length]
  · intro c hc
    exact hexOfBytes_mem _ c hc

/-- Concrete instantiation of C1 at the key-permuted pair from test
12.1.2: `{"id": 1, "name": "test", "value": "abc"}` against
`{"name": "test", "value": "abc", "id": 1}`. -/
theorem compute_hash_key_order_independent_witness :
    (isDictLike (Json.obj [("id", .num 1), ("name", .str "test"), ("value", .str "abc")]) = true ∧
     isDictLike (Json.obj [("name", .str "test"), ("value", .str "abc"), ("id", .num 1)]) = true ∧
     semEq (Json.obj [("id", .num 1), ("name", .str "test"), ("value", .str "abc")])
       (Json.obj [("name", .str "test"), ("value", .str "abc"), ("id", .num 1)]) = true) ∧
    compute_hash (Json.obj [("id", .num 1), ("name", .str "test"), ("value", .str "abc")]) =
      compute_hash (Json.obj [("name", .str "test"), ("value", .str "abc"), ("id", .num 1)]) :=
  ⟨⟨by decide, by decide, by decide⟩,
    (compute_hash_key_order_independent _ _ (by decide) (by decide) (by decide)).1⟩

/-! ## Raw persistence (`load_raw_data`, `dags/moodle4_dag.py`)

The loader executes, per record,
`INSERT INTO moodle_raw (...) VALUES (...) ON CONFLICT (instance, entity,
moodle_id, ts_extract) DO NOTHING`, then commits; on any exception it
rolls the transaction back and re-raises.  The table itself is created by
`sql/01_create_raw.sql`, which is not part of the repository snapshot;
the store below is modelled from the spec schema: rows keyed by the
unique tuple `(instance, entity, moodle_id, ts_extract)`, with a
conflicting insert doing nothing. -/

structure RawRow where
  instanceName : String
  entity : String
  moodleId : Option Int
  dataJson : String
  tsExtract : String
  hashContent : String
deriving Repr, DecidableEq

def rowKey (r : RawRow) : String × String × Option Int × String :=
  (r.instanceName, r.entity, r.moodleId, r.tsExtract)

abbrev Store := List RawRow

/-- Modelled from the spec: the unique-key conflict-checked insert
(`ON CONFLICT (instance, entity, moodle_id, ts_extract) DO NOTHING`
against the table declared in the absent `sql/01_create_raw.sql`): when a
stored row already has the key, the insert is a silent no-op; otherwise
the row is appended.  No error is ever raised on a key collision. -/
def insertOnConflictDoNothing (s : Store) (r : RawRow) : Store :=
  if s.any (fun x => decide (rowKey x = rowKey r)) then s else s ++ [r]

/-- Number of stored rows carrying a given persistence key. -/
def countKey (s : Store) (k : String × String × Option Int × String) : Nat :=
  s.countP (fun x => decide (rowKey x = k))

theorem countKey_insert_self (s : Store) (r : RawRow) :
    countKey (insertOnConflictDoNothing s r) (rowKey r) =
      if s.any (fun x => decide (rowKey x = rowKey r)) then countKey s (rowKey r)
      else countKey s (rowKey r) + 1 := by
  rw [insertOnConflictDoNothing]
  by_cases h : s.any (fun x => decide (rowKey x = rowKey r))
  · rw [if_pos h, if_pos h]
  · rw [if_neg h, if_neg h, countKey, countKey, List.countP_append]
    simp

/-- C2: persisting a record twice is a no-op for the second insert, no
error reaches the caller (the insert is total — the conflict branch is
`DO NOTHING`), and exactly one row with the record key is stored
afterwards, provided the store respected key uniqueness (at most one row
with that key) beforehand. -/
theorem persist_twice_single_row (s : Store) (r : RawRow)
    (h : countKey s (rowKey r) ≤ 1) :
    insertOnConflictDoNothing (insertOnConflictDoNothing s r) r =
        insertOnConflictDoNothing s r ∧
      countKey (insertOnConflictDoNothing (insertOnConflictDoNothing s r) r) (rowKey r) = 1 := by
  by_cases hany : s.any (fun x => decide (rowKey x = rowKey r))
  · have hs : insertOnConflictDoNothing s r = s := by
      rw [insertOnConflictDoNothing, if_pos hany]
    rw [hs, hs]
    refine ⟨rfl, ?_⟩
    have hpos : 0 < countKey s (rowKey r) := by
      rw [List.any_eq_true] at hany
      obtain ⟨x, hx, hxk⟩ := hany
      rw [countKey]
      exact List.countP_pos_iff.2 ⟨x, hx, hxk⟩
    omega
  · have hs : insertOnConflictDoNothing s r = s ++ [r] := by
      rw [insertOnConflictDoNothing, if_neg hany]
    have hzero : countKey s (rowKey r) = 0 := by
      rw [countKey, List.countP_eq_zero]
      intro x hx
      rw [List.any_eq_true] at hany
      exact fun hk => hany ⟨x, hx, hk⟩
    have hmem : (s ++ [r]).any (fun x => decide (rowKey x = rowKey r)) := by
      rw [List.any_eq_true]
      exact ⟨r, by simp, by simp⟩
    have hs2 : insertOnConflictDoNothing (s ++ [r]) r = s ++ [r] := by
      rw [insertOnConflictDoNothing, if_pos hmem]
    rw [hs, hs2]
    refine ⟨rfl, ?_⟩
    rw [countKey, List.countP_append]
    rw [countKey] at hzero
    rw [hzero]
    simp

/-- Concrete instantiation of C2: a fresh store, one record persisted
twice. -/
theorem persist_twice_single_row_witness :
    countKey [] (rowKey ⟨"moodle4", "user", some 42, "...", "2024-01-01T00:00:00", "h"⟩) ≤ 1 ∧
      countKey
        (insertOnConflictDoNothing
          (insertOnConflictDoNothing []
            ⟨"moodle4", "user", some 42, "...", "2024-01-01T00:00:00", "h"⟩)
          ⟨"moodle4", "user", some 42, "...", "2024-01-01T00:00:00", "h"⟩)
        (rowKey ⟨"moodle4", "user", some 42, "...", "2024-01-01T00:00:00", "h"⟩) = 1 :=
  ⟨by decide,
    (persist_twice_single_row [] ⟨"moodle4", "user", some 42, "...", "2024-01-01T00:00:00", "h"⟩
      (by decide)).2⟩

/-! ## Batch atomicity (`load_raw_data`, lines 309-332)

The loader opens one connection/cursor, executes every insert inside one
transaction, commits on success, and on any exception rolls back and
re-raises.  `execInserts` is the cursor loop over a database-primitive
insert action `exec` (which may fail on any single row); `loadBatch`
wraps it with the commit/rollback protocol: the first component of the
result is the committed store visible after the task, the second the
propagated error, if any. -/

def execInserts (exec : Store → RawRow → Except String Store) :
    Store → List RawRow → Except String Store
  | s, [] => .ok s
  | s, r :: rest =>
      match exec s r with
      | .ok s2 => execInserts exec s2 rest
      | .error e => .error e

def loadBatch (exec : Store → RawRow → Except String Store) (committed : Store)
    (records : List RawRow) : Store × Option String :=
  match execInserts exec committed records with
  | .ok s2 => (s2, none)
  | .error e => (committed, some e)

theorem execInserts_append (exec : Store → RawRow → Except String Store) :
    ∀ (rs1 : List RawRow) (s : Store) (rs2 : List RawRow),
      execInserts exec s (rs1 ++ rs2) =
        match execInserts exec s rs1 with
        | .ok s1 => execInserts exec s1 rs2
        | .error e => .error e
  | [], s, rs2 => by rw [List.nil_append, execInserts]
  | r :: rest, s, rs2 => by
      rw [List.cons_append, execInserts, execInserts]
      cases exec s r with
      | ok s2 => exact execInserts_append exec rest s2 rs2
      | error e => rfl

/-- C3: batch persistence is atomic.  If the insert of some record `r`
in the batch fails (after the prefix `rs1` succeeded), the committed
store is unchanged and the error propagates to the caller; if every
insert succeeds the whole batch is committed together. -/
theorem load_batch_atomic (exec : Store → RawRow → Except String Store) (s : Store)
    (rs : List RawRow) :
    (∀ rs1 r rs2 s1 e, rs = rs1 ++ r :: rs2 → execInserts exec s rs1 = .ok s1 →
        exec s1 r = .error e → loadBatch exec s rs = (s, some e)) ∧
      (∀ s2, execInserts exec s rs = .ok s2 → loadBatch exec s rs = (s2, none)) := by
  constructor
  · intro rs1 r rs2 s1 e hsplit hok hbad
    have hstep : execInserts exec s1 (r :: rs2) = .error e := by
      show (match exec s1 r with
            | .ok s2 => execInserts exec s2 rs2
            | .error e => .error e) = .error e
      rw [hbad]
    have : execInserts exec s rs = .error e := by
      rw [hsplit, execInserts_append, hok]
      exact hstep
    rw [loadBatch, this]
  · intro s2 hok
    rw [loadBatch, hok]

/-- Concrete instantiation of C3: a two-record batch whose second insert
fails leaves the store unchanged and propagates the error; the same batch
under an always-succeeding insert commits both records. -/
theorem load_batch_atomic_witness :
    loadBatch
        (fun s r => if r.entity = "bad" then .error "boom" else .ok (s ++ [r]))
        [] [⟨"m", "user", some 1, "d", "t", "h"⟩, ⟨"m", "bad", some 2, "d", "t", "h"⟩] =
      ([], some "boom") ∧
    loadBatch (fun s r => .ok (s ++ [r]))
        [] [⟨"m", "user", some 1, "d", "t", "h"⟩, ⟨"m", "bad", some 2, "d", "t", "h"⟩] =
      ([⟨"m", "user", some 1, "d", "t", "h"⟩, ⟨"m", "bad", some 2, "d", "t", "h"⟩], none) :=
  ⟨(load_batch_atomic
      (fun s r => if r.entity = "bad" then .error "boom" else .ok (s ++ [r])) []
      [⟨"m", "user", some 1, "d", "t", "h"⟩, ⟨"m", "bad", some 2, "d", "t", "h"⟩]).1
      [⟨"m", "user", some 1, "d", "t", "h"⟩] ⟨"m", "bad", some 2, "d", "t", "h"⟩ []
      [⟨"m", "user", some 1, "d", "t", "h"⟩] "boom" rfl rfl rfl,
    (load_batch_atomic (fun s r => .ok (s ++ [r])) []
      [⟨"m", "user", some 1, "d", "t", "h"⟩, ⟨"m", "bad", some 2, "d", "t", "h"⟩]).2
      [⟨"m", "user", some 1, "d", "t", "h"⟩, ⟨"m", "bad", some 2, "d", "t", "h"⟩] rfl⟩

/-! ## API call executor (`MoodleAPIClient._call_api`)

The transport layer: `requests.Session.post` through an `HTTPAdapter`
with `urllib3.Retry(total=max_retries, status_forcelist=[429, 500, 502,
503, 504], allowed_methods=["GET", "POST"])`.  A call under test is
driven by a script of successive would-be responses; `sessionPost`
consumes them while the status is retryable and retries remain, and
delivers the first non-retryable response together with the number of
attempts made.  Exhaustion (or an empty script) is a transport-level
failure, like any `requests.exceptions.RequestException`. -/

def statusForcelist : List Nat := [429, 500, 502, 503, 504]

structure HttpResponse where
  status : Nat
  body : Json
deriving Repr

inductive ApiError where
  | network (msg : String)
  | transport (status : Nat)
  | moodle (msg : String)
deriving Repr, DecidableEq

def sessionPost : Nat → List HttpResponse → Except String HttpResponse × Nat
  | _, [] => (.error "connection error", 1)
  | retries, r :: rest =>
      if r.status ∈ statusForcelist then
        match retries with
        | 0 => (.error "max retries exceeded", 1)
        | n + 1 =>
            let res := sessionPost n rest
            (res.1, res.2 + 1)
      else (.ok r, 1)

/-- Python dict key membership, `key in data`. -/
def hasKey (fields : List (String × Json)) (k : String) : Bool :=
  fields.any (fun p => p.1 == k)

/-- Python `data.get('message', 'Unknown error')` as the text carried by
the raised error; a non-string message value is rendered through the
JSON serializer (the claims only evaluate it on strings). -/
def getMessage (fields : List (String × Json)) : String :=
  match fields.find? (fun p => p.1 == "message") with
  | some (_, .str s) => s
  | some (_, j) => String.mk (serializeRawL j)
  | none => "Unknown error"

/-- Result of one `_call_api` invocation: the returned value or raised
error, the number of transport attempts consumed, and whether the
rate-limit `time.sleep(self.rate_limit_delay)` was executed. -/
structure CallResult where
  result : Except ApiError Json
  attempts : Nat
  slept : Bool
deriving Repr

/-- Embedding of `MoodleAPIClient._call_api` (`dags/utils/moodle_api.py`
lines 103-151): POST with transport retries, `response.raise_for_status()`,
decode the JSON body, raise `Exception("Moodle API Error: ...")` when the
body is a dict containing an `exception` key, then
`time.sleep(self.rate_limit_delay)` and return
`data if isinstance(data, list) else [data]`.  The sleep statement sits
after the exception check, so `slept` records whether execution reached
it. -/
def callApi (maxRetries : Nat) (responses : List HttpResponse) : CallResult :=
  match sessionPost maxRetries responses with
  | (.error e, n) => ⟨.error (.network e), n, false⟩
  | (.ok r, n) =>
      if 400 ≤ r.status then ⟨.error (.transport r.status), n, false⟩
      else
        match r.body with
        | .obj fields =>
            if hasKey fields "exception" then
              ⟨.error (.moodle ("Moodle API Error: " ++ getMessage fields)), n, false⟩
            else ⟨.ok (.arr [.obj fields]), n, true⟩
        | .arr items => ⟨.ok (.arr items), n, true⟩
        | other => ⟨.ok (.arr [other]), n, true⟩

/-- C4 counterexample: an HTTP-200 response whose body embeds a Moodle
application error completes the call (the application error is raised to
the caller), yet the mandatory rate-limit delay is NOT performed: in
`_call_api` the `raise` for the `exception` body precedes the
`time.sleep(self.rate_limit_delay)` statement, so the claim that the
delay happens after every completed call fails on this input. -/
theorem call_api_no_delay_on_embedded_error :
    (callApi 3 [⟨200, .obj [("exception", .str "error"), ("message", .str "Invalid token")]⟩]).result
        = .error (.moodle "Moodle API Error: Invalid token") ∧
      (callApi 3 [⟨200, .obj [("exception", .str "error"), ("message", .str "Invalid token")]⟩]).slept
        = false :=
  ⟨rfl, rfl⟩

/-- C4 as amended: the mandatory rate-limit delay is performed before
control returns to the caller on every successful call; on the
logically-erroneous-but-HTTP-200 path the application error propagates
without the delay (and transport errors likewise skip it). -/
theorem call_api_sleep_after_success (mr : Nat) (rs : List HttpResponse) (d : Json)
    (h : (callApi mr rs).result = .ok d) : (callApi mr rs).slept = true := by
  rcases hsp : sessionPost mr rs with ⟨res, n⟩
  cases res with
  | error e =>
      rw [callApi] at h
      simp [hsp] at h
  | ok r =>
      obtain ⟨st, body⟩ := r
      by_cases hst : 400 ≤ st
      · rw [callApi] at h
        simp [hsp, hst] at h
      · rw [callApi] at h ⊢
        cases body with
        | obj fields =>
            by_cases hexc : hasKey fields "exception" = true
            · simp [hsp, hst, hexc] at h
            · simp [hsp, hst, hexc]
        | null => simp [hsp, hst]
        | bool b => simp [hsp, hst]
        | num m => simp [hsp, hst]
        | str s => simp [hsp, hst]
        | arr items => simp [hsp, hst]

/-- Concrete instantiation of the amended C4: a successful call performs
the delay. -/
theorem call_api_sleep_after_success_witness :
    (callApi 3 [⟨200, .arr [.obj [("id", .num 1)]]⟩]).result = .ok (.arr [.obj [("id", .num 1)]]) ∧
      (callApi 3 [⟨200, .arr [.obj [("id", .num 1)]]⟩]).slept = true :=
  ⟨rfl, call_api_sleep_after_success 3 [⟨200, .arr [.obj [("id", .num 1)]]⟩]
    (.arr [.obj [("id", .num 1)]]) rfl⟩

/-- C5: when the delivered HTTP-200 response body is a dict containing an
`exception` key, `_call_api` raises the application-level
`Moodle API Error` carrying the remote `message` text, the call consumes
exactly the attempts the transport already made (no retry is triggered by
the application error — transport retries react only to the retryable
status codes, and a delivered 200 ends them), and the error is fatal to
the call: it propagates uncaught past the `RequestException` handler,
taking priority over any transport-level treatment. -/
theorem remote_error_fatal_no_retry (mr : Nat) (rs : List HttpResponse)
    (r : HttpResponse) (n : Nat) (fields : List (String × Json))
    (hpost : sessionPost mr rs = (.ok r, n)) (hstatus : r.status = 200)
    (hbody : r.body = .obj fields) (hexc : hasKey fields "exception" = true) :
    (callApi mr rs).result = .error (.moodle ("Moodle API Error: " ++ getMessage fields)) ∧
      (callApi mr rs).attempts = n ∧ (callApi mr rs).slept = false := by
  obtain ⟨st, body⟩ := r
  simp only at hstatus hbody
  subst hstatus
  subst hbody
  rw [callApi, hpost]
  simp [hexc]

/-- Concrete instantiation of C5: one retryable 500 response followed by
an HTTP-200 body embedding an error; two transport attempts are made,
the raised error carries the remote message, and no further attempt or
delay follows. -/
theorem remote_error_fatal_no_retry_witness :
    sessionPost 3 [⟨500, .null⟩, ⟨200, .obj [("exception", .str "e"), ("message", .str "bad token")]⟩]
        = (.ok ⟨200, .obj [("exception", .str "e"), ("message", .str "bad token")]⟩, 2) ∧
      (callApi 3 [⟨500, .null⟩, ⟨200, .obj [("exception", .str "e"), ("message", .str "bad token")]⟩]).result
        = .error (.moodle "Moodle API Error: bad token") ∧
      (callApi 3 [⟨500, .null⟩, ⟨200, .obj [("exception", .str "e"), ("message", .str "bad token")]⟩]).attempts
        = 2 :=
  ⟨rfl,
    (remote_error_fatal_no_retry 3
      [⟨500, .null⟩, ⟨200, .obj [("exception", .str "e"), ("message", .str "bad token")]⟩]
      ⟨200, .obj [("exception", .str "e"), ("message", .str "bad token")]⟩ 2
      [("exception", .str "e"), ("message", .str "bad token")] rfl rfl rfl rfl).1,
    (remote_error_fatal_no_retry 3
      [⟨500, .null⟩, ⟨200, .obj [("exception", .str "e"), ("message", .str "bad token")]⟩]
      ⟨200, .obj [("exception", .str "e"), ("message", .str "bad token")]⟩ 2
      [("exception", .str "e"), ("message", .str "bad token")] rfl rfl rfl rfl).2.1⟩

/-! ## Entity methods (`get_users`, `get_course_grade_items`, `get_grades`)

Each method calls `_call_api` and then evaluates
`result.get(KEY, []) if isinstance(result, dict) else result`.
`_call_api` returns `data if isinstance(data, list) else [data]`, so the
value bound to `result` is always a Python list and the
`isinstance(result, dict)` test can never be true. -/

/-- Python dict `.get(key, default)`. -/
def pyGetD (fields : List (String × Json)) (k : String) (dflt : Json) : Json :=
  match fields.find? (fun p => p.1 == k) with
  | some p => p.2
  | none => dflt

/-- Embedding of `MoodleAPIClient.get_users` response handling:
`result.get('users', []) if isinstance(result, dict) else result` applied
to the executor's return value. -/
def get_users (maxRetries : Nat) (responses : List HttpResponse) : Except ApiError Json :=
  match (callApi maxRetries responses).result with
  | .error e => .error e
  | .ok result =>
      .ok (match result with
           | .obj fields => pyGetD fields "users" (.arr [])
           | _ => result)

/-- Embedding of `MoodleAPIClient.get_course_grade_items` response
handling: `result.get('usergrades', []) if isinstance(result, dict) else
result`. -/
def get_course_grade_items (maxRetries : Nat) (responses : List HttpResponse) :
    Except ApiError Json :=
  match (callApi maxRetries responses).result with
  | .error e => .error e
  | .ok result =>
      .ok (match result with
           | .obj fields => pyGetD fields "usergrades" (.arr [])
           | _ => result)

/-- Embedding of `MoodleAPIClient.get_grades` response handling:
`result.get('tables', []) if isinstance(result, dict) else result`. -/
def get_grades (maxRetries : Nat) (responses : List HttpResponse) : Except ApiError Json :=
  match (callApi maxRetries responses).result with
  | .error e => .error e
  | .ok result =>
      .ok (match result with
           | .obj fields => pyGetD fields "tables" (.arr [])
           | _ => result)

/-- C6 (code bug): an object-wrapped remote response is NOT unwrapped.
For the HTTP-200 body `{"users": [{"id": 1, "username": "testuser"}]}`
(the shape unit test 1.4.1 feeds to the unwrap logic), `get_users`
returns the one-element list holding the wrapping object — `_call_api`
has already wrapped the dict body into `[data]`, making the
`isinstance(result, dict)` unwrap branch unreachable — instead of the
inner `users` list the claim (and the method docstring) promise; the
grade-items method misbehaves identically on a `usergrades`-wrapped
body. -/
theorem get_users_wrapped_response_not_unwrapped :
    get_users 3 [⟨200, .obj [("users", .arr [.obj [("id", .num 1), ("username", .str "testuser")]])]⟩]
        = .ok (.arr [.obj [("users", .arr [.obj [("id", .num 1), ("username", .str "testuser")]])]]) ∧
      Json.arr [.obj [("users", .arr [.obj [("id", .num 1), ("username", .str "testuser")]])]]
        ≠ .arr [.obj [("id", .num 1), ("username", .str "testuser")]] ∧
      get_course_grade_items 3 [⟨200, .obj [("usergrades", .arr [.obj [("userid", .num 7)]])]⟩]
        = .ok (.arr [.obj [("usergrades", .arr [.obj [("userid", .num 7)]])]]) := by
  refine ⟨rfl, ?_, rfl⟩
  intro h
  simp at h

/-! ## Record preparation (`prepare_raw_record` and the `load_raw_data`
shaping step)

`prepare_raw_record(instance, entity, moodle_id, data)` builds the row
dict: verbatim `instance` and `entity`, `data_json = json.dumps(data)`
(insertion order, no key sorting), `ts_extract =
datetime.utcnow().isoformat()` — the single impure timestamp read,
modelled as the explicit argument `nowIso` — and `hash_content =
compute_hash(data)`.  `load_raw_data` singularizes the plural task
entity with `entity.rstrip('s')` before calling it. -/

structure PreparedRecord where
  instanceName : String
  entity : String
  moodleId : Option Int
  dataJson : String
  tsExtract : String
  hashContent : String
deriving Repr, DecidableEq

def prepare_raw_record (instanceName entity : String) (moodleId : Option Int)
    (data : Json) (nowIso : String) : PreparedRecord :=
  ⟨instanceName, entity, moodleId, String.mk (serializeRawL data), nowIso, compute_hash data⟩

/-- Python `str.rstrip('s')`: removes every trailing `s`. -/
def rstripS (s : String) : String :=
  String.mk (s.toList.reverse.dropWhile (fun c => c = 's')).reverse

/-- The record-shaping step of `load_raw_data`:
`prepare_raw_record(instance=MOODLE_INSTANCE, entity=entity.rstrip('s'),
moodle_id=moodle_id, data=item)`. -/
def prepareForLoad (instanceName entity : String) (moodleId : Option Int)
    (data : Json) (nowIso : String) : PreparedRecord :=
  prepare_raw_record instanceName (rstripS entity) moodleId data nowIso

/-- Whether a string ends in the character `s`. -/
def endsInS (s : String) : Bool :=
  match s.toList.reverse with
  | [] => false
  | c :: _ => c = 's'

theorem rstripS_of_single_s {stem : String} (hst : endsInS stem = false) :
    rstripS (stem ++ "s") = stem := by
  rw [rstripS]
  have hconcat : (stem ++ "s").toList = stem.toList ++ ['s'] := by
    rfl
  rw [hconcat, List.reverse_append]
  show String.mk (List.dropWhile _ ('s' :: stem.toList.reverse)).reverse = stem
  rw [List.dropWhile_cons_of_pos (by simp)]
  have hdrop : stem.toList.reverse.dropWhile (fun c => c = 's') = stem.toList.reverse := by
    rw [endsInS] at hst
    cases hrev : stem.toList.reverse with
    | nil => rfl
    | cons c rest =>
        rw [hrev] at hst
        simp at hst
        rw [List.dropWhile_cons_of_neg (by simp [hst])]
  rw [hdrop, List.reverse_reverse]
  rfl

/-- C7: the `load_raw_data` record shaping singularizes a plural entity
label (a label `stem ++ "s"` whose stem has no further trailing `s`
yields entity `stem` — `rstrip('s')` drops every trailing `s`, which on
such labels is exactly the trailing-character singularization heuristic
of spec section 9), stamps the supplied current-UTC instant as the
extraction timestamp, computes the content hash of `data`, serializes
`data` to its JSON string, and passes instance and id through.  The
function performs no I/O and is pure except for the timestamp read,
which enters as the `nowIso` argument. -/
theorem prepare_record_spec (instanceName stem : String) (moodleId : Option Int)
    (data : Json) (nowIso : String) (hs : endsInS stem = false) :
    (prepareForLoad instanceName (stem ++ "s") moodleId data nowIso).entity = stem ∧
      (prepareForLoad instanceName (stem ++ "s") moodleId data nowIso).tsExtract = nowIso ∧
      (prepareForLoad instanceName (stem ++ "s") moodleId data nowIso).hashContent
        = compute_hash data ∧
      (prepareForLoad instanceName (stem ++ "s") moodleId data nowIso).dataJson
        = String.mk (serializeRawL data) ∧
      (prepareForLoad instanceName (stem ++ "s") moodleId data nowIso).instanceName
        = instanceName ∧
      (prepareForLoad instanceName (stem ++ "s") moodleId data nowIso).moodleId = moodleId := by
  refine ⟨?_, rfl, rfl, rfl, rfl, rfl⟩
  rw [prepareForLoad, prepare_raw_record]
  exact rstripS_of_single_s hs

/-- Concrete instantiation of C7 at entity label `"users"`. -/
theorem prepare_record_spec_witness :
    endsInS "user" = false ∧
      (prepareForLoad "moodle4" ("user" ++ "s") (some 42) (.obj [("id", .num 42)])
        "2024-01-01T02:00:00").entity = "user" :=
  ⟨by decide,
    (prepare_record_spec "moodle4" "user" (some 42) (.obj [("id", .num 42)])
      "2024-01-01T02:00:00" (by decide)).1⟩

/-! ## String helpers shared by the configuration parser and the URL
validator: Python `str.strip()` (ASCII whitespace), `str.split(',')` and
`str.rstrip('/')` over character lists. -/

def isSpaceChar (c : Char) : Bool :=
  c = ' ' || c = '\t' || c = '\n' || c = '\r' || c.toNat = 11 || c.toNat = 12

def stripChars (l : List Char) : List Char :=
  ((l.dropWhile isSpaceChar).reverse.dropWhile isSpaceChar).reverse

def pyStrip (s : String) : String := String.mk (stripChars s.toList)

def splitComma : List Char → List (List Char)
  | [] => [[]]
  | c :: rest =>
      match splitComma rest with
      | [] => [[c]]
      | h :: t => if c = ',' then [] :: h :: t else (c :: h) :: t

/-- Python `s.split(',')`. -/
def pySplitComma (s : String) : List String := (splitComma s.toList).map String.mk

/-! ## Multi-instance configuration parsing (`parse_moodle_config`) -/

structure InstanceConfig where
  url : String
  token : String
  instanceName : String
deriving Repr, DecidableEq

/-- The comprehension `[x.strip() for x in s.split(',') if x.strip()]`:
split on commas, strip whitespace, discard empties. -/
def parsedItems (s : String) : List String :=
  ((pySplitComma s).map pyStrip).filter (fun x => x != "")

/-- The construction loop of `parse_moodle_config`: zip URLs with
tokens (stopping at the shorter list, as Python `zip` does), guard
against empty entries, and name the pairs `moodle1`, `moodle2`, ...
positionally. -/
def buildConfigs : List String → List String → Nat → Except String (List InstanceConfig)
  | u :: us, t :: ts, i =>
      if u = "" ∨ t = "" then .error ("Empty URL or token at position " ++ toString (i + 1))
      else
        match buildConfigs us ts (i + 1) with
        | .ok cs => .ok (⟨u, t, "moodle" ++ toString (i + 1)⟩ :: cs)
        | .error e => .error e
  | _, _, _ => .ok []

/-- Embedding of `parse_moodle_config` (`dags/utils/moodle_api.py` lines
337-386). -/
def parse_moodle_config (urlsStr tokensStr : String) : Except String (List InstanceConfig) :=
  if urlsStr = "" ∨ tokensStr = "" then .error "Both URLs and tokens must be provided"
  else if (parsedItems urlsStr).length ≠ (parsedItems tokensStr).length then
    .error "Number of URLs must match number of tokens"
  else if parsedItems urlsStr = [] then
    .error "At least one Moodle URL and token must be provided"
  else buildConfigs (parsedItems urlsStr) (parsedItems tokensStr) 0

/-- The configurations the parser is specified to produce: positional
url/token pairs named `moodle(i+1)` in list order. -/
def configsSpec : List String → List String → Nat → List InstanceConfig
  | u :: us, t :: ts, i => ⟨u, t, "moodle" ++ toString (i + 1)⟩ :: configsSpec us ts (i + 1)
  | _, _, _ => []

theorem parsedItems_ne_empty (s : String) : ∀ x ∈ parsedItems s, x ≠ "" := by
  intro x hx
  rw [parsedItems] at hx
  have := List.of_mem_filter hx
  simpa using this

theorem buildConfigs_ok : ∀ (us ts : List String) (i : Nat),
    (∀ u ∈ us, u ≠ "") → (∀ t ∈ ts, t ≠ "") →
    buildConfigs us ts i = .ok (configsSpec us ts i)
  | [], [], _, _, _ => rfl
  | [], _ :: _, _, _, _ => rfl
  | _ :: _, [], _, _, _ => rfl
  | u :: us, t :: ts, i, hu, ht => by
      rw [buildConfigs, if_neg, buildConfigs_ok us ts (i + 1)
        (fun x hx => hu x (List.mem_cons_of_mem u hx))
        (fun x hx => ht x (List.mem_cons_of_mem t hx))]
      · rfl
      · push_neg
        exact ⟨hu u (List.mem_cons_self u us), ht t (List.mem_cons_self t ts)⟩

theorem configsSpec_getD : ∀ (us ts : List String) (i j : Nat), j < us.length → j < ts.length →
    (configsSpec us ts i).getD j ⟨"", "", ""⟩ =
      ⟨us.getD j "", ts.getD j "", "moodle" ++ toString (i + j + 1)⟩
  | [], _, _, j, hj, _ => by simp at hj
  | _ :: _, [], _, j, _, hj => by simp at hj
  | u :: us, t :: ts, i, 0, _, _ => rfl
  | u :: us, t :: ts, i, j + 1, hj1, hj2 => by
      rw [configsSpec]
      show (configsSpec us ts (i + 1)).getD j ⟨"", "", ""⟩ = _
      rw [configsSpec_getD us ts (i + 1) j (by simpa using hj1) (by simpa using hj2)]
      show InstanceConfig.mk _ _ ("moodle" ++ toString (i + 1 + j + 1)) = _
      rw [show i + 1 + j + 1 = i + (j + 1) + 1 by omega]
      rfl

theorem configsSpec_length : ∀ (us ts : List String) (i : Nat), us.length = ts.length →
    (configsSpec us ts i).length = us.length
  | [], [], _, _ => rfl
  | [], _ :: _, _, h => by simp at h
  | _ :: _, [], _, h => by simp at h
  | u :: us, t :: ts, i, h => by
      rw [configsSpec, List.length_cons, List.length_cons,
        configsSpec_length us ts (i + 1) (by simpa using h)]

/-- C8 counterexample: on the spec's own example input the parser names
the two configurations `moodle1` and `moodle2` (matching unit tests
2.1.1-2.1.7), not `instance1` and `instance2` as the claim states. -/
theorem parse_moodle_config_names_counterexample :
    parse_moodle_config "https://m1.com,https://m2.com" "t1,t2" =
        .ok [⟨"https://m1.com", "t1", "moodle1"⟩, ⟨"https://m2.com", "t2", "moodle2"⟩] ∧
      ("moodle1" : String) ≠ "instance1" :=
  ⟨rfl, by decide⟩

/-- C8 as amended: for comma-separated inputs whose post-filter element
counts are equal and nonzero the parser returns that many configurations
with positionally matching url/token pairs, named `moodle1..moodleN` in
list order; it fails with a configuration error when either input is
empty or the post-filter counts differ. -/
theorem parse_moodle_config_spec (us ts : String) :
    (us = "" ∨ ts = "" →
      parse_moodle_config us ts = .error "Both URLs and tokens must be provided") ∧
      (us ≠ "" → ts ≠ "" → (parsedItems us).length ≠ (parsedItems ts).length →
        parse_moodle_config us ts = .error "Number of URLs must match number of tokens") ∧
      (us ≠ "" → ts ≠ "" → (parsedItems us).length = (parsedItems ts).length →
        parsedItems us ≠ [] →
        parse_moodle_config us ts = .ok (configsSpec (parsedItems us) (parsedItems ts) 0) ∧
          (configsSpec (parsedItems us) (parsedItems ts) 0).length = (parsedItems us).length ∧
          ∀ j < (parsedItems us).length,
            (configsSpec (parsedItems us) (parsedItems ts) 0).getD j ⟨"", "", ""⟩ =
              ⟨(parsedItems us).getD j "", (parsedItems ts).getD j "",
                "moodle" ++ toString (j + 1)⟩) := by
  refine ⟨?_, ?_, ?_⟩
  · intro h
    rw [parse_moodle_config, if_pos h]
  · intro h1 h2 hne
    rw [parse_moodle_config, if_neg (by push_neg; exact ⟨h1, h2⟩), if_pos hne]
  · intro h1 h2 hlen hnil
    refine ⟨?_, configsSpec_length _ _ 0 hlen, ?_⟩
    · rw [parse_moodle_config, if_neg (by push_neg; exact ⟨h1, h2⟩),
        if_neg (by push_neg; exact hlen), if_neg hnil]
      exact buildConfigs_ok _ _ 0 (parsedItems_ne_empty us) (parsedItems_ne_empty ts)
    · intro j hj
      rw [configsSpec_getD _ _ 0 j hj (hlen ▸ hj), Nat.zero_add]

/-- Concrete instantiation of the amended C8 on the spec's example
input. -/
theorem parse_moodle_config_spec_witness :
    (("https://m1.com,https://m2.com" : String) ≠ "" ∧ ("t1,t2" : String) ≠ "" ∧
      (parsedItems "https://m1.com,https://m2.com").length = (parsedItems "t1,t2").length ∧
      parsedItems "https://m1.com,https://m2.com" ≠ []) ∧
    parse_moodle_config "https://m1.com,https://m2.com" "t1,t2" =
      .ok (configsSpec (parsedItems "https://m1.com,https://m2.com") (parsedItems "t1,t2") 0) :=
  ⟨⟨by decide, by decide, by decide, by decide⟩,
    ((parse_moodle_config_spec "https://m1.com,https://m2.com" "t1,t2").2.2
      (by decide) (by decide) (by decide) (by decide)).1⟩

/-! ## Fan-out extraction (`extract_enrolments` etc., `dags/moodle4_dag.py`)

For each previously extracted course with a truthy `id`, the per-course
client call runs inside a `try`: on success every returned record is
tagged with the owning `course_id` and accumulated, on any exception the
course is logged and skipped.  The per-course client call is the
parameter `fetch`; records are dicts. -/

/-- Python truthiness of a JSON value (`if course_id:`). -/
def pyTruthy : Json → Bool
  | .null => false
  | .bool b => b
  | .num n => n != 0
  | .str s => s != ""
  | .arr l => !l.isEmpty
  | .obj l => !l.isEmpty

/-- Python `dict.get(key)`: the value or `None`. -/
def pyGet (fields : List (String × Json)) (k : String) : Json :=
  match fields.find? (fun p => p.1 == k) with
  | some p => p.2
  | none => .null

/-- Python dict item assignment `d[k] = v`: overwrite in place, else
append. -/
def setKey (k : String) (v : Json) : List (String × Json) → List (String × Json)
  | [] => [(k, v)]
  | (k2, v2) :: rest => if k2 = k then (k2, v) :: rest else (k2, v2) :: setKey k v rest

/-- Embedding of `extract_enrolments`: iterate the course list, skip
courses without a truthy `id`, call `fetch` for each remaining course,
tag each returned record with its `course_id` and accumulate; a failed
`fetch` contributes nothing.  Total by construction: no exception
escapes the batch. -/
def extract_enrolments (fetch : Json → Except String (List (List (String × Json))))
    (courses : List (List (String × Json))) : List (List (String × Json)) :=
  courses.foldl (fun acc course =>
    let cid := pyGet course "id"
    if pyTruthy cid then
      match fetch cid with
      | .ok users => acc ++ users.map (setKey "course_id" cid)
      | .error _ => acc
    else acc) []

/-- Embedding of `extract_grade_items`: structurally identical fan-out
over `client.get_course_grade_items`. -/
def extract_grade_items (fetch : Json → Except String (List (List (String × Json))))
    (courses : List (List (String × Json))) : List (List (String × Json)) :=
  courses.foldl (fun acc course =>
    let cid := pyGet course "id"
    if pyTruthy cid then
      match fetch cid with
      | .ok items => acc ++ items.map (setKey "course_id" cid)
      | .error _ => acc
    else acc) []

theorem extract_enrolments_step (fetch : Json → Except String (List (List (String × Json))))
    (acc : List (List (String × Json))) :
    ∀ (courses : List (List (String × Json))),
      courses.foldl (fun acc course =>
        let cid := pyGet course "id"
        if pyTruthy cid then
          match fetch cid with
          | .ok users => acc ++ users.map (setKey "course_id" cid)
          | .error _ => acc
        else acc) acc =
      acc ++ courses.foldl (fun acc course =>
        let cid := pyGet course "id"
        if pyTruthy cid then
          match fetch cid with
          | .ok users => acc ++ users.map (setKey "course_id" cid)
          | .error _ => acc
        else acc) [] := by
  intro courses
  induction courses generalizing acc with
  | nil => simp
  | cons c cs ih =>
      rw [List.foldl_cons, List.foldl_cons]
      by_cases ht : pyTruthy (pyGet c "id") = true
      · cases hf : fetch (pyGet c "id") with
        | ok users =>
            simp only [ht, hf, if_true, List.nil_append]
            rw [ih (acc ++ users.map (setKey "course_id" (pyGet c "id"))),
              ih (users.map (setKey "course_id" (pyGet c "id"))), List.append_assoc]
        | error e =>
            simp only [ht, hf, if_true]
            exact ih acc
      · simp only [ht, if_false]
        exact ih acc

/-- C9: in a 3-course fan-out where the per-course call fails on course
2 and succeeds on courses 1 and 3, the batch result contains exactly the
course-1 and course-3 records, each tagged with its owning `course_id`;
the failure is absorbed inside the loop (`extract_enrolments` and
`extract_grade_items` are total functions, so no exception escapes the
batch method), in enrolments and in the structurally identical
grade-items fan-out. -/
theorem extract_partial_failure
    (fetch fetchG : Json → Except String (List (List (String × Json))))
    (c1 c2 c3 : List (String × Json)) (id1 id2 id3 : Json)
    (r1 r3 g1 g3 : List (List (String × Json))) (e eg : String)
    (h1 : pyGet c1 "id" = id1) (ht1 : pyTruthy id1 = true) (hf1 : fetch id1 = .ok r1)
    (h2 : pyGet c2 "id" = id2) (ht2 : pyTruthy id2 = true) (hf2 : fetch id2 = .error e)
    (h3 : pyGet c3 "id" = id3) (ht3 : pyTruthy id3 = true) (hf3 : fetch id3 = .ok r3)
    (hg1 : fetchG id1 = .ok g1) (hg2 : fetchG id2 = .error eg) (hg3 : fetchG id3 = .ok g3) :
    extract_enrolments fetch [c1, c2, c3] =
        r1.map (setKey "course_id" id1) ++ r3.map (setKey "course_id" id3) ∧
      extract_grade_items fetchG [c1, c2, c3] =
        g1.map (setKey "course_id" id1) ++ g3.map (setKey "course_id" id3) := by
  constructor
  · rw [extract_enrolments, List.foldl_cons, List.foldl_cons, List.foldl_cons, List.foldl_nil]
    simp only [h1, h2, h3, ht1, ht2, ht3, hf1, hf2, hf3, if_true, List.nil_append]
  · rw [extract_grade_items, List.foldl_cons, List.foldl_cons, List.foldl_cons, List.foldl_nil]
    simp only [h1, h2, h3, ht1, ht2, ht3, hg1, hg2, hg3, if_true, List.nil_append]

/-- Concrete instantiation of C9: courses 1, 2, 3 where the per-course
call raises on course 2. -/
theorem extract_partial_failure_witness :
    extract_enrolments
        (fun cid => match cid with
          | .num 2 => .error "boom"
          | _ => .ok [[("id", .num 10)], [("id", .num 11)]])
        [[("id", .num 1)], [("id", .num 2)], [("id", .num 3)]] =
      [[("id", .num 10), ("course_id", .num 1)], [("id", .num 11), ("course_id", .num 1)],
        [("id", .num 10), ("course_id", .num 3)], [("id", .num 11), ("course_id", .num 3)]] :=
  ((extract_partial_failure
      (fun cid => match cid with
        | .num 2 => .error "boom"
        | _ => .ok [[("id", .num 10)], [("id", .num 11)]])
      (fun cid => match cid with
        | .num 2 => .error "boom"
        | _ => .ok [[("id", .num 10)], [("id", .num 11)]])
      [("id", .num 1)] [("id", .num 2)] [("id", .num 3)]
      (.num 1) (.num 2) (.num 3)
      [[("id", .num 10)], [("id", .num 11)]] [[("id", .num 10)], [("id", .num 11)]]
      [[("id", .num 10)], [("id", .num 11)]] [[("id", .num 10)], [("id", .num 11)]]
      "boom" "boom"
      rfl rfl rfl rfl rfl rfl rfl rfl rfl rfl rfl rfl).1).trans rfl

/-! ## URL validation (`MoodleAPIClient._validate_url`)

`_validate_url` rejects empty input, strips surrounding whitespace,
rejects an explicit (case-insensitive) `http://` scheme, prefixes
`https://` when no (case-insensitive) `https://` scheme is present,
strips trailing `/` characters, and finally requires a case-sensitive
`https://` start and a minimum length of 12. -/

def rstripSlashes (l : List Char) : List Char :=
  (l.reverse.dropWhile (fun c => c = '/')).reverse

def httpChars : List Char := ['h', 't', 't', 'p', ':', '/', '/']

def httpsChars : List Char := ['h', 't', 't', 'p', 's', ':', '/', '/']

/-- The normalization half of `_validate_url`: prefix `https://` when the
(lowercased) input does not already start with it, then strip trailing
slashes. -/
def normalizeUrl (u1 : List Char) : List Char :=
  rstripSlashes (if httpsChars.isPrefixOf (u1.map Char.toLower) then u1 else httpsChars ++ u1)

/-- Embedding of `MoodleAPIClient._validate_url` (`dags/utils/moodle_api.py`
lines 64-101). -/
def validate_url (url : String) : Except String String :=
  if url = "" then .error "Moodle URL cannot be empty"
  else if httpChars.isPrefixOf ((stripChars url.toList).map Char.toLower) then
    .error "Insecure HTTP protocol detected. Please use HTTPS for Moodle URL"
  else if httpsChars.isPrefixOf (normalizeUrl (stripChars url.toList)) = false ∨
      (normalizeUrl (stripChars url.toList)).length < 12 then
    .error "Invalid Moodle URL format"
  else .ok (String.mk (normalizeUrl (stripChars url.toList)))

/-- Whether the last character of a string is whitespace. -/
def trailingSpace (s : String) : Bool :=
  match s.toList.getLast? with
  | some c => isSpaceChar c
  | none => false

/-- C10 counterexample: the accepted output is not a fixed point of the
validator.  `"ab  /"` validates to `"https://ab  "` (the stripped
trailing slash exposes trailing whitespace that the initial strip could
not see), and re-validating that output strips the whitespace, leaving
`"https://ab"` of length 10 < 12, which is rejected — so validation of
an accepted output does not return it unchanged, and does not even
succeed. -/
theorem validate_url_not_idempotent :
    validate_url "ab  /" = .ok "https://ab  " ∧
      validate_url "https://ab  " = .error "Invalid Moodle URL format" :=
  ⟨rfl, rfl⟩

theorem dropWhile_twice (p : Char → Bool) : ∀ l : List Char,
    (l.dropWhile p).dropWhile p = l.dropWhile p
  | [] => rfl
  | c :: rest => by
      rw [List.dropWhile_cons]
      by_cases h : p c = true
      · rw [if_pos h]
        exact dropWhile_twice p rest
      · rw [if_neg h, List.dropWhile_cons, if_neg h]

theorem rstripSlashes_idem (l : List Char) :
    rstripSlashes (rstripSlashes l) = rstripSlashes l := by
  rw [rstripSlashes, rstripSlashes, List.reverse_reverse, dropWhile_twice]

theorem map_toLower_https : httpsChars.map Char.toLower = httpsChars := rfl

theorem http_isPrefixOf_https_append (X : List Char) :
    httpChars.isPrefixOf (httpsChars ++ X) = false := rfl

theorem https_isPrefixOf_append (X : List Char) :
    httpsChars.isPrefixOf (httpsChars ++ X) = true :=
  List.isPrefixOf_iff_prefix.mpr ⟨X, rfl⟩

theorem stripChars_eq_self {l : List Char} (h1 : l.dropWhile isSpaceChar = l)
    (h2 : l.reverse.dropWhile isSpaceChar = l.reverse) : stripChars l = l := by
  rw [stripChars, h1, h2, List.reverse_reverse]

theorem dropWhile_space_https (X : List Char) :
    (httpsChars ++ X).dropWhile isSpaceChar = httpsChars ++ X := by
  rw [show httpsChars ++ X = 'h' :: (['t', 't', 'p', 's', ':', '/', '/'] ++ X) from rfl,
    List.dropWhile_cons, if_neg (by decide)]

theorem dropWhile_space_reverse {l : List Char}
    (hlast : ∀ c, l.getLast? = some c → isSpaceChar c = false) :
    l.reverse.dropWhile isSpaceChar = l.reverse := by
  cases hrev : l.reverse with
  | nil => rfl
  | cons c t =>
      have hc : l.getLast? = some c := by
        rw [← List.head?_reverse, hrev]
        rfl
      rw [List.dropWhile_cons, if_neg (by rw [hlast c hc]; simp)]

/-- C10 as amended: on accepted outputs carrying no trailing whitespace,
the validator is idempotent — if validation of `u` succeeds with `v` and
`v` does not end in a whitespace character, validating `v` again
succeeds and returns `v` unchanged.  (The counterexample above forces
the trailing-whitespace carve-out: stripping a trailing `/` may expose
trailing whitespace, which a second validation then strips.) -/
theorem validate_url_idempotent (u v : String)
    (hok : validate_url u = .ok v) (hts : trailingSpace v = false) :
    validate_url v = .ok v := by
  rw [validate_url] at hok
  by_cases h0 : u = ""
  · rw [if_pos h0] at hok
    simp at hok
  rw [if_neg h0] at hok
  by_cases hh : httpChars.isPrefixOf ((stripChars u.toList).map Char.toLower) = true
  · rw [if_pos hh] at hok
    simp at hok
  rw [if_neg hh] at hok
  by_cases hbad : httpsChars.isPrefixOf (normalizeUrl (stripChars u.toList)) = false ∨
      (normalizeUrl (stripChars u.toList)).length < 12
  · rw [if_pos hbad] at hok
    simp at hok
  rw [if_neg hbad] at hok
  push_neg at hbad
  obtain ⟨hpre, hlen⟩ := hbad
  have hpre' : httpsChars.isPrefixOf (normalizeUrl (stripChars u.toList)) = true := by
    cases hq : httpsChars.isPrefixOf (normalizeUrl (stripChars u.toList)) with
    | false => exact absurd hq hpre
    | true => rfl
  have hv : v = String.mk (normalizeUrl (stripChars u.toList)) := by
    cases hok
    rfl
  have hvl : v.toList = normalizeUrl (stripChars u.toList) := by
    rw [hv]
    rfl
  obtain ⟨rest, hrest⟩ := List.isPrefixOf_iff_prefix.mp hpre'
  have hne : v.toList ≠ [] := by
    rw [hvl, ← hrest]
    simp [httpsChars]
  have hvne : v ≠ "" := by
    intro hcon
    apply hne
    rw [hcon]
    rfl
  have hstrip : stripChars v.toList = v.toList := by
    apply stripChars_eq_self
    · rw [hvl, ← hrest]
      exact dropWhile_space_https rest
    · apply dropWhile_space_reverse
      intro c hc
      rw [trailingSpace, hc] at hts
      exact hts
  have hhv : httpChars.isPrefixOf ((stripChars v.toList).map Char.toLower) = false := by
    rw [hstrip, hvl, ← hrest, List.map_append, map_toLower_https]
    exact http_isPrefixOf_https_append _
  have hnorm : normalizeUrl (stripChars v.toList) = v.toList := by
    rw [hstrip, hvl]
    have hcond : httpsChars.isPrefixOf
        ((normalizeUrl (stripChars u.toList)).map Char.toLower) = true := by
      rw [← hrest, List.map_append, map_toLower_https]
      exact https_isPrefixOf_append _
    rw [normalizeUrl, if_pos hcond]
    show rstripSlashes (normalizeUrl (stripChars u.toList)) = _
    rw [normalizeUrl]
    exact rstripSlashes_idem _
  rw [validate_url, if_neg hvne, if_neg (by rw [hhv]; simp),
    if_neg (by
      rw [hnorm, hvl]
      push_neg
      exact ⟨by rw [hpre']; simp, hlen⟩)]
  rw [hnorm]
  rfl

/-- Concrete instantiation of the amended C10: the accepted output
`https://moodle.example.com` (no trailing whitespace) is a fixed point
of the validator. -/
theorem validate_url_idempotent_witness :
    (validate_url "moodle.example.com" = .ok "https://moodle.example.com" ∧
      trailingSpace "https://moodle.example.com" = false) ∧
    validate_url "https://moodle.example.com" = .ok "https://moodle.example.com" :=
  ⟨⟨rfl, by decide⟩,
    validate_url_idempotent "moodle.example.com" "https://moodle.example.com" rfl (by decide)⟩
